import Mathlib

/-!
Verification of the Moonlight/Steam shortcut synchronization engine
(`src/main.rs`).  The program loads a Steam `shortcuts.vdf` store, removes
records tagged `"moonlight"` when sync is enabled, materializes fresh
shortcut records from a CSV enumeration of remotely streamable apps, appends
them and writes the result back.  Each definition below shallowly embeds the
corresponding Rust code.
-/

namespace Moonlight

/-- One entry of the shortcut store, mirroring the fields of
`steam_shortcuts_util::shortcut::ShortcutOwned` as used by `main.rs` and
described by the data model of the specification. -/
structure ShortcutRecord where
  appId : Nat
  appName : String
  exe : String
  startDir : String
  icon : String
  shortcutPath : String
  launchOptions : String
  isHidden : Bool
  allowDesktopConfig : Bool
  allowOverlay : Bool
  openVr : Nat
  devkit : Nat
  devkitGameId : String
  lastPlayTime : Nat
  tags : List String
deriving Repr, DecidableEq

/-- Modelled from the spec: `Shortcut::new` of the external
`steam_shortcuts_util` crate (a collaborator outside this repository), which
`main.rs` calls with `(order, app_name, exe, start_dir, icon, shortcut_path,
launch_options)`; per the specification all remaining fields are
empty/default and the tag set starts empty ("all other fields empty/default",
"added to an otherwise-empty tag set").  `app_id` is derived/empty at
creation. -/
def Shortcut.new (_order appName exe startDir icon shortcutPath launchOptions : String) :
    ShortcutRecord :=
  { appId := 0
    appName := appName
    exe := exe
    startDir := startDir
    icon := icon
    shortcutPath := shortcutPath
    launchOptions := launchOptions
    isHidden := false
    allowDesktopConfig := false
    allowOverlay := false
    openVr := 0
    devkit := 0
    devkitGameId := ""
    lastPlayTime := 0
    tags := [] }

/-- Character-list helper: does `needle` occur at the head of `hay`? -/
def matchAt : List Char → List Char → Bool
  | [], _ => true
  | _ :: _, [] => false
  | c :: cs, d :: ds => c = d && matchAt cs ds

/-- Character-list helper: does `needle` occur anywhere inside `hay`?
Embeds Rust `str::contains` with a literal pattern. -/
def hasSub (needle : List Char) : List Char → Bool
  | [] => matchAt needle []
  | hay@(_ :: rest) => matchAt needle hay || hasSub needle rest

/-- Substring containment on strings, embedding `record[6].contains(..)`. -/
def strContains (hay needle : String) : Bool :=
  hasSub needle.data hay.data

/-- Character-list helper embedding Rust `str::strip_prefix`: if `pre` occurs
at the head of `s`, return the remainder, else `none`. -/
def dropLeading : List Char → List Char → Option (List Char)
  | [], s => some s
  | _ :: _, [] => none
  | c :: cs, d :: ds => if c = d then dropLeading cs ds else none

/-- String version of `dropLeading`. -/
def dropScheme (pre s : String) : Option String :=
  (dropLeading pre.data s.data).map String.mk

/-- The sentinel tag marking records owned by the synchronization engine
(`"moonlight"` in `main.rs`). -/
def sentinelTag : String := "moonlight"

/-- The local-file scheme stripped from icon references in `main.rs`. -/
def fileScheme : String := "file://"

/-- The no-image marker token checked by `main.rs`. -/
def noImageMarker : String := "no_app_image"

/-- Icon reference normalization from `main.rs` line 119:
`if record[6].contains("no_app_image") { "" } else
{ record[6].strip_prefix("file://").unwrap() }`.  The `unwrap` panic on a
reference carrying neither marker nor scheme is modelled as `none`. -/
def iconOf (raw : String) : Option String :=
  if strContains raw noImageMarker then some ""
  else dropScheme fileScheme raw

/-- Per-run configuration shared by all candidates of one synchronization
pass: the host argument and the resolved Moonlight executable path. -/
structure RunConfig where
  host : String
  moonlightPath : String
deriving Repr, DecidableEq

/-- Candidate materialization of a single CSV record (`main.rs` lines
109-133): arity check, launch-option synthesis, icon normalization,
`Shortcut::new` and the sentinel-tag push.  Failure (the arity error return,
or the `unwrap` panic on a bad icon reference) is `Except.error`. -/
def materializeRow (cfg : RunConfig) (row : List String) : Except String ShortcutRecord :=
  if h : row.length = 7 then
    let title := row.get ⟨0, by omega⟩
    let launchOptions := "stream " ++ cfg.host ++ " \"" ++ title ++ "\""
    match iconOf (row.get ⟨6, by omega⟩) with
    | none => .error "panicked while stripping the file scheme from the icon reference"
    | some icon =>
      let sc := Shortcut.new "" title cfg.moonlightPath "" icon "" launchOptions
      .ok { sc with tags := sc.tags ++ [sentinelTag] }
  else
    .error ("Expected exactly 7 entries in record, but got " ++ toString row.length)

/-- Candidate materialization over the whole enumeration (`main.rs` loop at
lines 107-139): records are materialized in order and the first failure
aborts the whole run with an error, appending nothing. -/
def materializeRows (cfg : RunConfig) : List (List String) → Except String (List ShortcutRecord)
  | [] => .ok []
  | row :: rest =>
    match materializeRow cfg row with
    | .error e => .error e
    | .ok s =>
      match materializeRows cfg rest with
      | .error e => .error e
      | .ok t => .ok (s :: t)

/-- The `csv::Reader` of `main.rs` is built with default settings, so the
first row of the stream is consumed as a header and `reader.records()` yields
only the remaining rows. -/
def csvDataRows : List (List String) → List (List String)
  | [] => []
  | _header :: rest => rest

/-- Ownership filter (`main.rs` lines 84-87): when sync is enabled,
`shortcuts.retain(|s| !s.tags.contains(&"moonlight".to_string()))`; when
disabled the sequence is untouched. -/
def ownershipFilter (syncEnabled : Bool) (shortcuts : List ShortcutRecord) :
    List ShortcutRecord :=
  if syncEnabled then
    shortcuts.filter (fun s => !(s.tags.contains sentinelTag))
  else
    shortcuts

/-- The pure synchronization transformation: ownership filter, candidate
materialization over the data rows, then append (`shortcuts.extend`). -/
def syncTransform (cfg : RunConfig) (syncEnabled : Bool)
    (existing : List ShortcutRecord) (rows : List (List String)) :
    Except String (List ShortcutRecord) :=
  match materializeRows cfg (csvDataRows rows) with
  | .error e => .error e
  | .ok fresh => .ok (ownershipFilter syncEnabled existing ++ fresh)

/-- Modelled from the spec: the on-disk byte content of a store file as seen
through the external codec collaborator (`steam_shortcuts_util`), which this
repository does not contain.  Bytes either decode to an ordered record list
or fail to parse. -/
inductive StoreFile where
  | good : List ShortcutRecord → StoreFile
  | bad : StoreFile
deriving Repr, DecidableEq

/-- Modelled from the spec: `parse_shortcuts` of the external codec — decode
yields the on-disk ordered record list, or a `FormatError` on bytes that do
not match the binary grammar. -/
def parse_shortcuts : StoreFile → Except String (List ShortcutRecord)
  | .good l => .ok l
  | .bad => .error "Failed to parse shortcuts"

/-- Modelled from the spec: `shortcuts_to_bytes` of the external codec —
encode is total and `decode` is its left inverse. -/
def shortcuts_to_bytes (l : List ShortcutRecord) : StoreFile :=
  .good l

/-- Environment of one run of `main`: the store file at the resolved path
(`none` when absent, as distinguished by `shortcuts_path.exists()`), whether
the containing `config` directory exists, and the outcome of the external
Moonlight enumeration (already split into CSV rows; `Except.error` covers a
spawn failure, a non-success exit status or a CSV parse error). -/
structure Env where
  storeFile : Option StoreFile
  configDirPresent : Bool
  enumeration : Except String (List (List String))
deriving Repr

/-- Loading step of `main` (lines 71-82): an absent store file is not an
error — an empty sequence is synthesized; otherwise the bytes are parsed. -/
def loadStore (file : Option StoreFile) : Except String (List ShortcutRecord) :=
  match file with
  | none => .ok []
  | some f => parse_shortcuts f

/-- Write effect of `std::fs::write` (line 144): creates or overwrites the
file, but fails when the containing directory does not exist — parent
directories are never created. -/
def fsWrite (dirPresent : Bool) (old : Option StoreFile) (content : StoreFile) :
    Except String (Option StoreFile) × Option StoreFile :=
  if dirPresent then (.ok (some content), some content)
  else (.error "Failed to write shortcuts to file: No such file or directory", old)

/-- The in-memory part of `main` after path resolution: load (or synthesize)
the store, apply the ownership filter, consume the enumeration and
materialize candidates, yielding the final sequence or the first error. -/
def mainTransform (cfg : RunConfig) (syncEnabled : Bool) (env : Env) :
    Except String (List ShortcutRecord) :=
  match loadStore env.storeFile with
  | .error e => .error e
  | .ok existing =>
    match env.enumeration with
    | .error e => .error e
    | .ok rows => syncTransform cfg syncEnabled existing rows

/-- The full pipeline of `main` after path resolution: the in-memory
transformation followed — unless a dry run — by the single write, which is
the last step.  The first component is the process result, the second the
store file persisted at the end of the run (unchanged on every error
path). -/
def mainModel (cfg : RunConfig) (syncEnabled dryRun : Bool) (env : Env) :
    Except String Unit × Option StoreFile :=
  match mainTransform cfg syncEnabled env with
  | .error e => (.error e, env.storeFile)
  | .ok final =>
    if dryRun then (.ok (), env.storeFile)
    else
      match fsWrite env.configDirPresent env.storeFile (shortcuts_to_bytes final) with
      | (.ok _, fileAfter) => (.ok (), fileAfter)
      | (.error e, fileAfter) => (.error e, fileAfter)

/-! Helper lemmas. -/

theorem dropLeading_self_append (pre s : List Char) :
    dropLeading pre (pre ++ s) = some s := by
  induction pre with
  | nil => rfl
  | cons c cs ih => simp [dropLeading, ih]

theorem dropLeading_eq_some (pre : List Char) :
    ∀ s r : List Char, dropLeading pre s = some r → s = pre ++ r := by
  induction pre with
  | nil =>
    intro s r h
    simpa [dropLeading] using h
  | cons c cs ih =>
    intro s r h
    cases s with
    | nil => exact absurd h (by simp [dropLeading])
    | cons d ds =>
      rw [dropLeading] at h
      split at h
      · rename_i hc
        subst hc
        simpa using ih ds r h
      · exact absurd h (by simp)

theorem contains_iff_mem (l : List String) (a : String) :
    l.contains a = true ↔ a ∈ l := by
  simp [List.contains]

theorem iconOf_marker (raw : String) (h : strContains raw noImageMarker = true) :
    iconOf raw = some "" := by
  simp [iconOf, h]

theorem iconOf_scheme (rest : String)
    (h : strContains (fileScheme ++ rest) noImageMarker = false) :
    iconOf (fileScheme ++ rest) = some rest := by
  simp only [iconOf, h, Bool.false_eq_true, if_false, dropScheme, String.data_append,
    dropLeading_self_append]
  rfl

theorem iconOf_none (raw : String) (hm : strContains raw noImageMarker = false)
    (hp : ∀ rest, raw ≠ fileScheme ++ rest) : iconOf raw = none := by
  simp only [iconOf, hm, Bool.false_eq_true, if_false, dropScheme]
  cases hd : dropLeading fileScheme.data raw.data with
  | none => rfl
  | some r =>
    exfalso
    have hdata : raw.data = fileScheme.data ++ r := dropLeading_eq_some _ _ _ hd
    apply hp (String.mk r)
    have : raw.data = (fileScheme ++ String.mk r).data := by
      rw [String.data_append]
      exact hdata
    calc raw = String.mk raw.data := rfl
    _ = String.mk (fileScheme ++ String.mk r).data := by rw [this]
    _ = fileScheme ++ String.mk r := rfl

theorem materializeRow_len_ne (cfg : RunConfig) (row : List String) (h : row.length ≠ 7) :
    materializeRow cfg row =
      .error ("Expected exactly 7 entries in record, but got " ++ toString row.length) := by
  simp [materializeRow, h]

theorem materializeRow_seven (cfg : RunConfig) (c0 c1 c2 c3 c4 c5 c6 : String) :
    materializeRow cfg [c0, c1, c2, c3, c4, c5, c6] =
      match iconOf c6 with
      | none => .error "panicked while stripping the file scheme from the icon reference"
      | some icon => .ok
          { appId := 0
            appName := c0
            exe := cfg.moonlightPath
            startDir := ""
            icon := icon
            shortcutPath := ""
            launchOptions := "stream " ++ cfg.host ++ " \"" ++ c0 ++ "\""
            isHidden := false
            allowDesktopConfig := false
            allowOverlay := false
            openVr := 0
            devkit := 0
            devkitGameId := ""
            lastPlayTime := 0
            tags := [sentinelTag] } := rfl

theorem materializeRow_ok_len (cfg : RunConfig) (row : List String) (rec : ShortcutRecord)
    (h : materializeRow cfg row = .ok rec) : row.length = 7 := by
  by_contra hn
  rw [materializeRow_len_ne cfg row hn] at h
  exact Except.noConfusion h

theorem materializeRow_ok_tags (cfg : RunConfig) (row : List String) (rec : ShortcutRecord)
    (h : materializeRow cfg row = .ok rec) : rec.tags = [sentinelTag] := by
  rw [materializeRow] at h
  split at h
  · split at h
    · exact Except.noConfusion h
    · cases h
      rfl
  · exact Except.noConfusion h

theorem materializeRows_ok_length (cfg : RunConfig) :
    ∀ (rows : List (List String)) (l : List ShortcutRecord),
      materializeRows cfg rows = .ok l → l.length = rows.length := by
  intro rows
  induction rows with
  | nil =>
    intro l h
    cases h
    rfl
  | cons row rest ih =>
    intro l h
    rw [materializeRows] at h
    cases hr : materializeRow cfg row with
    | error e => rw [hr] at h; exact Except.noConfusion h
    | ok s =>
      rw [hr] at h
      cases hm : materializeRows cfg rest with
      | error e => rw [hm] at h; exact Except.noConfusion h
      | ok t =>
        rw [hm] at h
        cases h
        simp [ih t hm]

theorem materializeRows_ok_tags (cfg : RunConfig) :
    ∀ (rows : List (List String)) (l : List ShortcutRecord),
      materializeRows cfg rows = .ok l → ∀ r ∈ l, r.tags = [sentinelTag] := by
  intro rows
  induction rows with
  | nil =>
    intro l h
    cases h
    intro r hr
    cases hr
  | cons row rest ih =>
    intro l h
    rw [materializeRows] at h
    cases hr : materializeRow cfg row with
    | error e => rw [hr] at h; exact Except.noConfusion h
    | ok s =>
      rw [hr] at h
      cases hm : materializeRows cfg rest with
      | error e => rw [hm] at h; exact Except.noConfusion h
      | ok t =>
        rw [hm] at h
        cases h
        intro r hmem
        cases List.mem_cons.mp hmem with
        | inl hs => exact hs ▸ materializeRow_ok_tags cfg row s hr
        | inr ht => exact ih t hm r ht

theorem materializeRows_bad_row (cfg : RunConfig) :
    ∀ (rows : List (List String)) (bad : List String), bad ∈ rows → bad.length ≠ 7 →
      ∃ e, materializeRows cfg rows = .error e := by
  intro rows
  induction rows with
  | nil =>
    intro bad hmem _
    cases hmem
  | cons row rest ih =>
    intro bad hmem hlen
    rw [materializeRows]
    cases List.mem_cons.mp hmem with
    | inl hb =>
      subst hb
      rw [materializeRow_len_ne cfg bad hlen]
      exact ⟨_, rfl⟩
    | inr hb =>
      cases hr : materializeRow cfg row with
      | error e => exact ⟨e, rfl⟩
      | ok s =>
        obtain ⟨e, he⟩ := ih bad hb hlen
        rw [he]
        exact ⟨e, rfl⟩

theorem ownershipFilter_nil (b : Bool) : ownershipFilter b [] = [] := by
  cases b <;> rfl

theorem ownershipFilter_append (a b : List ShortcutRecord) :
    ownershipFilter true (a ++ b) = ownershipFilter true a ++ ownershipFilter true b :=
  List.filter_append a b

theorem ownershipFilter_idem (l : List ShortcutRecord) :
    ownershipFilter true (ownershipFilter true l) = ownershipFilter true l := by
  apply List.filter_eq_self.mpr
  intro a ha
  have ha' : a ∈ List.filter (fun s => !(s.tags.contains sentinelTag)) l := ha
  exact (List.mem_filter.mp ha').2

theorem ownershipFilter_sentinel_nil (fresh : List ShortcutRecord)
    (h : ∀ r ∈ fresh, r.tags = [sentinelTag]) :
    ownershipFilter true fresh = [] := by
  apply List.filter_eq_nil_iff.mpr
  intro a ha
  rw [h a ha]
  decide

theorem mainTransform_eq_sync (cfg : RunConfig) (syncEnabled : Bool) (env : Env)
    (existing : List ShortcutRecord) (rows : List (List String))
    (hl : loadStore env.storeFile = Except.ok existing)
    (he : env.enumeration = Except.ok rows) :
    mainTransform cfg syncEnabled env = syncTransform cfg syncEnabled existing rows := by
  rw [mainTransform, hl, he]

theorem mainTransform_fail (cfg : RunConfig) (syncEnabled : Bool) (env : Env)
    (hfail : (∃ e, loadStore env.storeFile = Except.error e)
           ∨ (∃ e, env.enumeration = Except.error e)
           ∨ (∃ rows e, env.enumeration = Except.ok rows ∧
                materializeRows cfg (csvDataRows rows) = Except.error e)) :
    ∃ e, mainTransform cfg syncEnabled env = Except.error e := by
  cases hl : loadStore env.storeFile with
  | error e => exact ⟨e, by rw [mainTransform, hl]⟩
  | ok existing =>
    cases he : env.enumeration with
    | error e => exact ⟨e, by rw [mainTransform, hl, he]⟩
    | ok rows =>
      rcases hfail with ⟨e, h⟩ | ⟨e, h⟩ | ⟨rows', e, h1, h2⟩
      · rw [hl] at h
        exact Except.noConfusion h
      · rw [he] at h
        exact Except.noConfusion h
      · rw [he] at h1
        cases h1
        refine ⟨e, ?_⟩
        rw [mainTransform_eq_sync cfg syncEnabled env existing rows hl he, syncTransform, h2]

theorem mainModel_of_error (cfg : RunConfig) (syncEnabled dryRun : Bool) (env : Env)
    (e : String) (h : mainTransform cfg syncEnabled env = Except.error e) :
    mainModel cfg syncEnabled dryRun env = (Except.error e, env.storeFile) := by
  rw [mainModel, h]

theorem mainModel_write (cfg : RunConfig) (syncEnabled : Bool) (env : Env)
    (final : List ShortcutRecord)
    (h : mainTransform cfg syncEnabled env = Except.ok final)
    (hdir : env.configDirPresent = true) :
    mainModel cfg syncEnabled false env =
      (Except.ok (), some (shortcuts_to_bytes final)) := by
  rw [mainModel, h, hdir]
  rfl

theorem mainModel_write_nodir (cfg : RunConfig) (syncEnabled : Bool) (env : Env)
    (final : List ShortcutRecord)
    (h : mainTransform cfg syncEnabled env = Except.ok final)
    (hdir : env.configDirPresent = false) :
    mainModel cfg syncEnabled false env =
      (Except.error "Failed to write shortcuts to file: No such file or directory",
       env.storeFile) := by
  rw [mainModel, h, hdir]
  rfl

theorem mainModel_fail_no_write (cfg : RunConfig) (syncEnabled dryRun : Bool) (env : Env)
    (hfail : (∃ e, loadStore env.storeFile = Except.error e)
           ∨ (∃ e, env.enumeration = Except.error e)
           ∨ (∃ rows e, env.enumeration = Except.ok rows ∧
                materializeRows cfg (csvDataRows rows) = Except.error e)) :
    (∃ e, (mainModel cfg syncEnabled dryRun env).1 = Except.error e)
  ∧ (mainModel cfg syncEnabled dryRun env).2 = env.storeFile := by
  obtain ⟨e, he⟩ := mainTransform_fail cfg syncEnabled env hfail
  rw [mainModel_of_error cfg syncEnabled dryRun env e he]
  exact ⟨⟨e, rfl⟩, rfl⟩

/-! Concrete sample values used by the closed witness theorems. -/

/-- Per-run configuration used in the worked examples of the spec. -/
def cfgDemo : RunConfig := { host := "192.168.1.5", moonlightPath := "/usr/bin/moonlight" }

/-- Sample foreign record (no sentinel tag). -/
def recForeign : ShortcutRecord :=
  { appId := 42
    appName := "Doom"
    exe := "/usr/bin/doom"
    startDir := "/home/u"
    icon := ""
    shortcutPath := ""
    launchOptions := "-fast"
    isHidden := false
    allowDesktopConfig := true
    allowOverlay := true
    openVr := 0
    devkit := 0
    devkitGameId := ""
    lastPlayTime := 123
    tags := ["favorite"] }

/-- Sample engine-owned record (carries the sentinel tag). -/
def recOwned : ShortcutRecord :=
  { recForeign with appName := "Old Stream", tags := [sentinelTag, "old"] }

/-- Sample CSV header row as produced by the Moonlight enumerator. -/
def headerDemo : List String := ["Int ID", "App ID", "HDR", "4K", "Host", "VDisplay", "Image"]

/-- Sample well-formed CSV data row. -/
def rowDemo : List String := ["Halo", "1", "2", "3", "4", "5", "file:///home/u/icon.png"]

/-- Sample malformed CSV data row (six columns). -/
def rowBad : List String := ["OnlySix", "1", "2", "3", "4", "5"]

/-- The record materialized from `rowDemo` under `cfgDemo`. -/
def recHalo : ShortcutRecord :=
  { appId := 0
    appName := "Halo"
    exe := cfgDemo.moonlightPath
    startDir := ""
    icon := "/home/u/icon.png"
    shortcutPath := ""
    launchOptions := "stream 192.168.1.5 \"Halo\""
    isHidden := false
    allowDesktopConfig := false
    allowOverlay := false
    openVr := 0
    devkit := 0
    devkitGameId := ""
    lastPlayTime := 0
    tags := [sentinelTag] }

/-- Sample environment with a malformed enumeration row. -/
def envBad : Env :=
  { storeFile := some (StoreFile.good [recForeign])
    configDirPresent := true
    enumeration := .ok [headerDemo, rowBad] }

/-- Sample environment whose store file bytes do not parse. -/
def envBadStore : Env :=
  { storeFile := some StoreFile.bad
    configDirPresent := true
    enumeration := .ok [headerDemo, rowDemo] }

/-- Sample environment with no store file and no containing directory. -/
def envNoDir : Env :=
  { storeFile := none
    configDirPresent := false
    enumeration := .ok [headerDemo, rowDemo] }

/-! Claim theorems. -/

/-- C1: with sync enabled the ownership filter removes exactly the records
whose tag set contains `"moonlight"` before any candidates are appended;
untagged records survive with all fields unchanged and in their original
relative order; with sync disabled the existing sequence is untouched. -/
theorem ownership_filter_spec (existing : List ShortcutRecord) :
    (ownershipFilter true existing).Sublist existing
  ∧ (∀ s ∈ ownershipFilter true existing, sentinelTag ∉ s.tags)
  ∧ (∀ s ∈ existing, sentinelTag ∉ s.tags → s ∈ ownershipFilter true existing)
  ∧ (∀ cfg rows out, syncTransform cfg true existing rows = Except.ok out →
      ∃ fresh, out = ownershipFilter true existing ++ fresh)
  ∧ ownershipFilter false existing = existing := by
  refine ⟨List.filter_sublist existing, ?_, ?_, ?_, rfl⟩
  · intro s hs hmem
    have hs' : s ∈ List.filter (fun r => !(r.tags.contains sentinelTag)) existing := hs
    have hp := (List.mem_filter.mp hs').2
    rw [Bool.not_eq_true'] at hp
    have hc := (contains_iff_mem s.tags sentinelTag).mpr hmem
    rw [hp] at hc
    exact Bool.noConfusion hc
  · intro s hs hmem
    have hc : s.tags.contains sentinelTag = false := by
      cases hcc : s.tags.contains sentinelTag with
      | false => rfl
      | true => exact absurd ((contains_iff_mem s.tags sentinelTag).mp hcc) hmem
    exact List.mem_filter.mpr ⟨hs, by rw [hc]; rfl⟩
  · intro cfg rows out h
    rw [syncTransform] at h
    cases hm : materializeRows cfg (csvDataRows rows) with
    | error e =>
      rw [hm] at h
      exact Except.noConfusion h
    | ok fresh =>
      rw [hm] at h
      cases h
      exact ⟨fresh, rfl⟩

/-- C1 witness at a concrete store: the foreign record survives the enabled
filter, and the disabled filter leaves the store untouched. -/
theorem ownership_filter_spec_witness :
    recForeign ∈ ownershipFilter true [recOwned, recForeign]
  ∧ ownershipFilter false [recOwned, recForeign] = [recOwned, recForeign] :=
  ⟨(ownership_filter_spec [recOwned, recForeign]).2.2.1 recForeign (by decide) (by decide),
   (ownership_filter_spec [recOwned, recForeign]).2.2.2.2⟩

/-- C2: a data row whose column count is not 7 makes candidate
materialization fail with a hard error: the run errors out, nothing is
appended and the persisted store is left unchanged. -/
theorem arity_hard_stop (cfg : RunConfig) (syncEnabled dryRun : Bool) (env : Env)
    (rows : List (List String)) (bad : List String)
    (henum : env.enumeration = Except.ok rows)
    (hbad : bad ∈ csvDataRows rows) (hlen : bad.length ≠ 7) :
    (∃ e, materializeRows cfg (csvDataRows rows) = Except.error e)
  ∧ (∃ e, (mainModel cfg syncEnabled dryRun env).1 = Except.error e)
  ∧ (mainModel cfg syncEnabled dryRun env).2 = env.storeFile := by
  obtain ⟨e, he⟩ := materializeRows_bad_row cfg (csvDataRows rows) bad hbad hlen
  have hmain := mainModel_fail_no_write cfg syncEnabled dryRun env
    (Or.inr (Or.inr ⟨rows, e, henum, he⟩))
  exact ⟨⟨e, he⟩, hmain.1, hmain.2⟩

/-- C2 witness: a six-column row in the enumeration makes the concrete run
fail and leaves the concrete store file untouched. -/
theorem arity_hard_stop_witness :
    (∃ e, materializeRows cfgDemo (csvDataRows [headerDemo, rowBad]) = Except.error e)
  ∧ (∃ e, (mainModel cfgDemo true false envBad).1 = Except.error e)
  ∧ (mainModel cfgDemo true false envBad).2 = envBad.storeFile :=
  arity_hard_stop cfgDemo true false envBad [headerDemo, rowBad] rowBad rfl
    (by decide) (by decide)

/-- C3: an icon reference containing the marker token yields an empty
`icon_path`; otherwise the local-file scheme is stripped verbatim; a
reference with neither marker nor scheme makes the materialization of its
row fail. -/
theorem icon_normalization (raw : String) :
    (strContains raw noImageMarker = true → iconOf raw = some "")
  ∧ (strContains raw noImageMarker = false →
      ∀ rest, raw = fileScheme ++ rest → iconOf raw = some rest)
  ∧ (strContains raw noImageMarker = false → (∀ rest, raw ≠ fileScheme ++ rest) →
      iconOf raw = none)
  ∧ (iconOf raw = none → ∀ cfg t c1 c2 c3 c4 c5,
      materializeRow cfg [t, c1, c2, c3, c4, c5, raw] =
        Except.error "panicked while stripping the file scheme from the icon reference") := by
  refine ⟨iconOf_marker raw, ?_, iconOf_none raw, ?_⟩
  · intro hm rest hrest
    rw [hrest]
    exact iconOf_scheme rest (hrest ▸ hm)
  · intro hn cfg t c1 c2 c3 c4 c5
    rw [materializeRow_seven, hn]

/-- C3 witness: the two worked examples of the spec, plus the failure on a
reference with neither marker nor scheme. -/
theorem icon_normalization_witness :
    iconOf "file:///home/u/icon.png" = some "/home/u/icon.png"
  ∧ iconOf "no_app_image" = some ""
  ∧ materializeRow cfgDemo ["T", "1", "2", "3", "4", "5", "http://x"] =
      Except.error "panicked while stripping the file scheme from the icon reference" :=
  ⟨(icon_normalization "file:///home/u/icon.png").2.1 (by decide) "/home/u/icon.png" rfl,
   (icon_normalization "no_app_image").1 (by decide),
   (icon_normalization "http://x").2.2.2 rfl cfgDemo "T" "1" "2" "3" "4" "5"⟩

/-- C4: the launch options of every materialized candidate are exactly the
action verb `stream`, the per-run address, and the double-quoted title. -/
theorem launch_options_format (cfg : RunConfig) (t c1 c2 c3 c4 c5 ico : String)
    (rec : ShortcutRecord)
    (h : materializeRow cfg [t, c1, c2, c3, c4, c5, ico] = Except.ok rec) :
    rec.launchOptions = "stream " ++ cfg.host ++ " \"" ++ t ++ "\"" := by
  rw [materializeRow_seven] at h
  cases hi : iconOf ico with
  | none =>
    rw [hi] at h
    exact Except.noConfusion h
  | some icon =>
    rw [hi] at h
    cases h
    rfl

/-- C4 witness: address `192.168.1.5` and title `Halo` give exactly
`stream 192.168.1.5 "Halo"`. -/
theorem launch_options_format_witness :
    recHalo.launchOptions = "stream " ++ cfgDemo.host ++ " \"" ++ "Halo" ++ "\""
  ∧ recHalo.launchOptions = "stream 192.168.1.5 \"Halo\"" :=
  ⟨launch_options_format cfgDemo "Halo" "1" "2" "3" "4" "5" "file:///home/u/icon.png"
     recHalo rfl,
   rfl⟩

/-- C5: every materialized candidate has `app_name` equal to the tuple title,
`exe_path` equal to the shared Moonlight executable path, all other fields
empty/default, and a tag set of exactly the sentinel tag. -/
theorem candidate_record_fields (cfg : RunConfig) (t c1 c2 c3 c4 c5 ico : String)
    (rec : ShortcutRecord)
    (h : materializeRow cfg [t, c1, c2, c3, c4, c5, ico] = Except.ok rec) :
    rec.appName = t ∧ rec.exe = cfg.moonlightPath ∧ rec.startDir = ""
  ∧ rec.shortcutPath = "" ∧ rec.appId = 0 ∧ rec.isHidden = false
  ∧ rec.allowDesktopConfig = false ∧ rec.allowOverlay = false ∧ rec.openVr = 0
  ∧ rec.devkit = 0 ∧ rec.devkitGameId = "" ∧ rec.lastPlayTime = 0
  ∧ rec.tags = [sentinelTag] := by
  rw [materializeRow_seven] at h
  cases hi : iconOf ico with
  | none =>
    rw [hi] at h
    exact Except.noConfusion h
  | some icon =>
    rw [hi] at h
    cases h
    exact ⟨rfl, rfl, rfl, rfl, rfl, rfl, rfl, rfl, rfl, rfl, rfl, rfl, rfl⟩

/-- C5 witness at the concrete sample row. -/
theorem candidate_record_fields_witness :
    recHalo.appName = "Halo" ∧ recHalo.exe = cfgDemo.moonlightPath
  ∧ recHalo.tags = [sentinelTag] :=
  ⟨(candidate_record_fields cfgDemo "Halo" "1" "2" "3" "4" "5"
      "file:///home/u/icon.png" recHalo rfl).1,
   (candidate_record_fields cfgDemo "Halo" "1" "2" "3" "4" "5"
      "file:///home/u/icon.png" recHalo rfl).2.1,
   (candidate_record_fields cfgDemo "Halo" "1" "2" "3" "4" "5"
      "file:///home/u/icon.png" recHalo rfl).2.2.2.2.2.2.2.2.2.2.2.2⟩

/-- C6: with sync enabled the final sequence length is the number of foreign
existing records plus the number of fresh candidates; with sync disabled it
is the number of all existing records plus the number of fresh candidates. -/
theorem final_length (cfg : RunConfig) (existing : List ShortcutRecord)
    (rows : List (List String)) (outSync outNoSync : List ShortcutRecord)
    (h1 : syncTransform cfg true existing rows = Except.ok outSync)
    (h2 : syncTransform cfg false existing rows = Except.ok outNoSync) :
    ∃ fresh, materializeRows cfg (csvDataRows rows) = Except.ok fresh
  ∧ outSync.length =
      (existing.filter (fun s => !(s.tags.contains sentinelTag))).length + fresh.length
  ∧ outNoSync.length = existing.length + fresh.length := by
  rw [syncTransform] at h1 h2
  cases hm : materializeRows cfg (csvDataRows rows) with
  | error e =>
    rw [hm] at h1
    exact Except.noConfusion h1
  | ok fresh =>
    rw [hm] at h1 h2
    cases h1
    cases h2
    exact ⟨fresh, rfl, List.length_append _ _, List.length_append _ _⟩

/-- C6 witness on a concrete store of one owned and one foreign record and a
one-row enumeration. -/
theorem final_length_witness :
    ∃ fresh, materializeRows cfgDemo (csvDataRows [headerDemo, rowDemo]) = Except.ok fresh
  ∧ ([recForeign, recHalo] : List ShortcutRecord).length =
      ([recOwned, recForeign].filter
        (fun s => !(s.tags.contains sentinelTag))).length + fresh.length
  ∧ ([recOwned, recForeign, recHalo] : List ShortcutRecord).length =
      ([recOwned, recForeign] : List ShortcutRecord).length + fresh.length :=
  final_length cfgDemo [recOwned, recForeign] [headerDemo, rowDemo]
    [recForeign, recHalo] [recOwned, recForeign, recHalo] rfl rfl

/-- C7: a second synchronization with the same candidate source and sync
enabled reproduces the first run's output exactly — the sentinel-tagged
records of run 1 are fully replaced, never duplicated. -/
theorem sync_idempotent (cfg : RunConfig) (existing : List ShortcutRecord)
    (rows : List (List String)) (out : List ShortcutRecord)
    (h : syncTransform cfg true existing rows = Except.ok out) :
    syncTransform cfg true out rows = Except.ok out := by
  rw [syncTransform] at h ⊢
  cases hm : materializeRows cfg (csvDataRows rows) with
  | error e =>
    rw [hm] at h
    exact Except.noConfusion h
  | ok fresh =>
    rw [hm] at h
    have h' : (Except.ok (ownershipFilter true existing ++ fresh) :
        Except String (List ShortcutRecord)) = Except.ok out := h
    have hout : ownershipFilter true existing ++ fresh = out := by
      injection h'
    subst hout
    rw [ownershipFilter_append, ownershipFilter_idem,
      ownershipFilter_sentinel_nil fresh
        (materializeRows_ok_tags cfg (csvDataRows rows) fresh hm),
      List.append_nil]

/-- C7 witness: re-running the concrete synchronization on its own output
returns that output unchanged. -/
theorem sync_idempotent_witness :
    syncTransform cfgDemo true [recForeign, recHalo] [headerDemo, rowDemo] =
      Except.ok [recForeign, recHalo] :=
  sync_idempotent cfgDemo [recOwned, recForeign] [headerDemo, rowDemo]
    [recForeign, recHalo] rfl

/-- C8: the store on disk is overwritten only after the whole in-memory
transformation has succeeded — on a decode failure, an enumeration failure
or a materialization failure the run errors out before the write step and
the persisted store is exactly as it was. -/
theorem no_partial_write (cfg : RunConfig) (syncEnabled dryRun : Bool) (env : Env)
    (hfail : (∃ e, loadStore env.storeFile = Except.error e)
           ∨ (∃ e, env.enumeration = Except.error e)
           ∨ (∃ rows e, env.enumeration = Except.ok rows ∧
                materializeRows cfg (csvDataRows rows) = Except.error e)) :
    (∃ e, (mainModel cfg syncEnabled dryRun env).1 = Except.error e)
  ∧ (mainModel cfg syncEnabled dryRun env).2 = env.storeFile :=
  mainModel_fail_no_write cfg syncEnabled dryRun env hfail

/-- C8 witness: unparsable store bytes abort the concrete run and leave the
bad file on disk untouched. -/
theorem no_partial_write_witness :
    (∃ e, (mainModel cfgDemo true false envBadStore).1 = Except.error e)
  ∧ (mainModel cfgDemo true false envBadStore).2 = some StoreFile.bad :=
  no_partial_write cfgDemo true false envBadStore
    (Or.inl ⟨"Failed to parse shortcuts", rfl⟩)

/-- C9 counterexample: with no store file and no containing `config`
directory the transformation succeeds but the write fails — the run errors
out and no store file (and no directory) is created, contradicting the
claim that the first write creates the containing directory if needed. -/
theorem store_creation_counterexample :
    (mainModel cfgDemo true false envNoDir).2 = none
  ∧ (mainModel cfgDemo true false envNoDir).1 =
      Except.error "Failed to write shortcuts to file: No such file or directory" :=
  ⟨rfl, rfl⟩

/-- C9 (amended): absence of a store file is not an error — an empty store
is synthesized and the run proceeds — and the first write creates the store
file from scratch provided its containing directory already exists; when the
directory is missing the write fails and nothing is created. -/
theorem store_creation_amended (cfg : RunConfig) (syncEnabled : Bool) (env : Env)
    (rows : List (List String)) (fresh : List ShortcutRecord)
    (hfile : env.storeFile = none)
    (henum : env.enumeration = Except.ok rows)
    (hmat : materializeRows cfg (csvDataRows rows) = Except.ok fresh) :
    loadStore env.storeFile = Except.ok []
  ∧ (env.configDirPresent = true →
      mainModel cfg syncEnabled false env =
        (Except.ok (), some (shortcuts_to_bytes fresh)))
  ∧ (env.configDirPresent = false →
      mainModel cfg syncEnabled false env =
        (Except.error "Failed to write shortcuts to file: No such file or directory",
         none)) := by
  have hl : loadStore env.storeFile = Except.ok [] := by
    rw [hfile]
    rfl
  have htr : mainTransform cfg syncEnabled env = Except.ok fresh := by
    rw [mainTransform_eq_sync cfg syncEnabled env [] rows hl henum, syncTransform, hmat,
      ownershipFilter_nil]
    rfl
  refine ⟨hl, ?_, ?_⟩
  · intro hdir
    exact mainModel_write cfg syncEnabled env fresh htr hdir
  · intro hdir
    rw [mainModel_write_nodir cfg syncEnabled env fresh htr hdir, hfile]

/-- C9 amended-claim witness: the concrete run with an absent file and an
existing directory creates the store from scratch; with the directory absent
it fails and creates nothing. -/
theorem store_creation_amended_witness :
    loadStore envNoDir.storeFile = Except.ok []
  ∧ mainModel cfgDemo true false envNoDir =
      (Except.error "Failed to write shortcuts to file: No such file or directory",
       none) :=
  ⟨(store_creation_amended cfgDemo true envNoDir [headerDemo, rowDemo] [recHalo]
      rfl rfl rfl).1,
   (store_creation_amended cfgDemo true envNoDir [headerDemo, rowDemo] [recHalo]
      rfl rfl rfl).2.2 rfl⟩

/-- C10: the first row of the enumeration is consumed as a CSV header — the
data rows are exactly everything after it, whatever the header's contents —
and a successful materialization yields exactly one candidate per data
row. -/
theorem header_row_skipped (cfg : RunConfig) (header : List String)
    (rows : List (List String)) :
    csvDataRows (header :: rows) = rows
  ∧ (∀ fresh, materializeRows cfg rows = Except.ok fresh →
      fresh.length = rows.length) :=
  ⟨rfl, fun fresh h => materializeRows_ok_length cfg rows fresh h⟩

/-- C10 witness: the concrete header is dropped and the single data row
yields exactly one candidate. -/
theorem header_row_skipped_witness :
    csvDataRows [headerDemo, rowDemo] = [rowDemo]
  ∧ ([recHalo] : List ShortcutRecord).length = [rowDemo].length :=
  ⟨(header_row_skipped cfgDemo headerDemo [rowDemo]).1,
   (header_row_skipped cfgDemo headerDemo [rowDemo]).2 [recHalo] rfl⟩

end Moonlight
